import Mathlib

/-
Verification of the udp-traceroute engine (src/main.go, with the unnamed
variant src/unnamed/part_000 as a second implementation).

The program is a strictly sequential TTL loop.  Each iteration:
  1. opens a fresh UDP send socket (net.ListenPacket "udp4"), fatal on error
     (log.Fatalf, which exits the process without running deferred calls);
  2. sets the IP TTL option on it (ipv4.PacketConn.SetTTL), fatal on error;
  3. sends one empty UDP datagram to destIP:33434, fatal on error;
  4. waits on the single shared ICMP listening connection with a 2 second
     read deadline; a deadline expiry prints a timeout marker and continues,
     any other read error is logged and continues;
  5. parses the received bytes with icmp.ParseMessage(1, ...); a parse error
     is logged and the loop continues with the next TTL;
  6. classifies the ICMP type: 11 (Time Exceeded) reports the responder and
     continues, 3 (Destination Unreachable) reports the responder, prints the
     completion line and returns from main (success), anything else reports
     the responder with the raw type and continues.
The loop runs ttl = 1, 2, ..., 30 and falls off the end if no Destination
Unreachable reply ever arrives.  The shared ICMP connection is closed by a
defer at the top of main, which runs on return from main but not on the
log.Fatalf paths (os.Exit skips deferred calls).

The embedding below models one run as a fold of the per-iteration step over
an environment that supplies, for each TTL, what the network and the local
stack do at that iteration.
-/

/-- Hop ceiling, src/main.go line 41: const maxHops = 30. -/
def maxHops : Nat := 30

/-- Per-hop read deadline in seconds, src/main.go line 42:
const timeout = 2 * time.Second. -/
def timeoutSeconds : Nat := 2

/-- Destination UDP port, src/main.go line 43: destPort := 33434. -/
def destPort : Nat := 33434

/-- ipv4.ICMPTypeTimeExceeded = 11. -/
def icmpTypeTimeExceeded : Nat := 11

/-- ipv4.ICMPTypeDestinationUnreachable = 3. -/
def icmpTypeDestinationUnreachable : Nat := 3

/-- ICMPv4 message types that have a structured body parser in
golang.org/x/net/icmp (the parseFns table): EchoReply 0, Destination
Unreachable 3, Echo 8, Time Exceeded 11, Parameter Problem 12, Extended Echo
Request 42, Extended Echo Reply 43.  Each of those parsers rejects a body
shorter than 4 bytes; every other type falls back to a raw-body parser that
never fails. -/
def typedBodyTypes : List Nat := [0, 3, 8, 11, 12, 42, 43]

/-- Model of golang.org/x/net/icmp.ParseMessage(1, b), restricted to what the
program observes: success or failure of the parse, and the ICMP type byte on
success.  ParseMessage fails with errMessageTooShort when len(b) < 4; for the
types in typedBodyTypes the body parser additionally fails when the body
b[4:] is shorter than 4 bytes (so len(b) < 8); extension-parsing errors
inside the multipart body parsers are swallowed, so for sufficiently long
input the parse succeeds and the message type is the first byte.  No checksum
is verified. -/
def parseMessage (b : List Nat) : Option Nat :=
  if b.length < 4 then none
  else if b.headD 0 ∈ typedBodyTypes ∧ b.length < 8 then none
  else some (b.headD 0)

/-- The receive buffer is a fresh all-zero 1500-byte slice each iteration
(replyBytes := make([]byte, 1500)); a received datagram of n bytes leaves the
trailing 1500 - n bytes zero. -/
def pad1500 (b : List Nat) : List Nat := b ++ List.replicate (1500 - b.length) 0

/-- The unnamed variant (src/unnamed/part_000 line 105) parses the whole
buffer, icmp.ParseMessage(1, replyBytes), instead of replyBytes[:n]. -/
def parseVariant (b : List Nat) : Option Nat := parseMessage (pad1500 b)

/-- One outbound probe as actually sent: an empty UDP payload to
destIP:33434 with the IP TTL option set to the loop counter, through a send
socket freshly opened in the same iteration (sockId records which iteration
opened the socket). -/
structure Probe where
  ttl : Nat
  dest : Nat
  port : Nat
  payload : List Nat
  sockId : Nat
deriving DecidableEq, Repr

/-- What the environment (local stack + network) does at one iteration:
net.ListenPacket fails, SetTTL fails, WriteTo fails, the read deadline
expires, ReadFrom fails with a non-timeout error, or a datagram of given
bytes arrives from a given peer address. -/
inductive NetEvent where
  | sendSocketFail
  | setTTLFail
  | sendFail
  | timeout
  | readError
  | packet (bytes : List Nat) (peer : Nat)
deriving DecidableEq, Repr

/-- The per-iteration line the program emits after the hop number: the
timeout marker, a logged read error, a logged decode error, or a
classification with the responder address. -/
inductive HopLine where
  | timedOut
  | readErr
  | decodeErr
  | timeExceeded (peer : Nat)
  | destUnreachable (peer : Nat)
  | unknown (peer : Nat) (t : Nat)
deriving DecidableEq, Repr

/-- Which of the three log.Fatalf sites inside the loop fired. -/
inductive FatalKind where
  | sendSocket
  | setTTL
  | send
deriving DecidableEq, Repr

/-- How the run ended: Destination Unreachable received (return from main),
the loop ran off the 30-hop ceiling, or a fatal error at some TTL. -/
inductive RunOutcome where
  | reachedDest (peer : Nat)
  | exhausted
  | fatalExit (k : FatalKind) (ttl : Nat)
deriving DecidableEq, Repr

def RunOutcome.isFatal : RunOutcome → Bool
  | .fatalExit _ _ => true
  | _ => false

/-- Observable result of a run: the hop lines in order (paired with their
TTL), the probes actually sent, how the run ended, and whether the deferred
Close of the shared ICMP connection ran (it does on return from main, it
does not on log.Fatalf, which calls os.Exit). -/
structure RunResult where
  reports : List (Nat × HopLine)
  probes : List Probe
  outcome : RunOutcome
  icmpConnClosed : Bool
deriving DecidableEq, Repr

/-- Result of one loop body. -/
inductive IterResult where
  | fatal (k : FatalKind)
  | cont (line : HopLine)
  | finished (peer : Nat)
deriving DecidableEq, Repr

def IterResult.isCont : IterResult → Bool
  | .cont _ => true
  | _ => false

/-- The switch on icmpMessage.Type (src/main.go lines 96-107), applied after
a successful ReadFrom: a parse failure is logged and continues; type 11
prints Time Exceeded and continues; type 3 prints Destination Unreachable
and the completion line and returns; any other type prints the raw type and
continues. -/
def classify (parse : List Nat → Option Nat) (bytes : List Nat) (peer : Nat) : IterResult :=
  match parse bytes with
  | none => IterResult.cont HopLine.decodeErr
  | some t =>
    if t = icmpTypeTimeExceeded then IterResult.cont (HopLine.timeExceeded peer)
    else if t = icmpTypeDestinationUnreachable then IterResult.finished peer
    else IterResult.cont (HopLine.unknown peer t)

/-- One iteration of the loop body (src/main.go lines 45-107) as a function
of what the environment does at that iteration. -/
def iterStep (parse : List Nat → Option Nat) (ev : NetEvent) : IterResult :=
  match ev with
  | NetEvent.sendSocketFail => IterResult.fatal FatalKind.sendSocket
  | NetEvent.setTTLFail => IterResult.fatal FatalKind.setTTL
  | NetEvent.sendFail => IterResult.fatal FatalKind.send
  | NetEvent.timeout => IterResult.cont HopLine.timedOut
  | NetEvent.readError => IterResult.cont HopLine.readErr
  | NetEvent.packet bytes peer => classify parse bytes peer

/-- The probe sent at a given TTL: empty payload, fixed port 33434, TTL set
to the loop counter, on the socket opened in this same iteration. -/
def probeFor (dest ttl : Nat) : Probe :=
  { ttl := ttl, dest := dest, port := destPort, payload := [], sockId := ttl }

/-- The TTL loop from a given TTL with a given number of remaining
iterations.  A fatal event sends no probe, emits no hop line, and exits the
process without running the deferred Close; a Destination Unreachable reply
ends the run successfully; everything else emits its line and continues with
the next TTL. -/
def runAux (parse : List Nat → Option Nat) (env : Nat → NetEvent) (dest : Nat) :
    Nat → Nat → RunResult
  | _, 0 => { reports := [], probes := [], outcome := RunOutcome.exhausted, icmpConnClosed := true }
  | ttl, fuel + 1 =>
    match iterStep parse (env ttl) with
    | IterResult.fatal k =>
      { reports := [], probes := [],
        outcome := RunOutcome.fatalExit k ttl, icmpConnClosed := false }
    | IterResult.finished peer =>
      { reports := [(ttl, HopLine.destUnreachable peer)], probes := [probeFor dest ttl],
        outcome := RunOutcome.reachedDest peer, icmpConnClosed := true }
    | IterResult.cont line =>
      { reports := (ttl, line) :: (runAux parse env dest (ttl + 1) fuel).reports
        probes := probeFor dest ttl :: (runAux parse env dest (ttl + 1) fuel).probes
        outcome := (runAux parse env dest (ttl + 1) fuel).outcome
        icmpConnClosed := (runAux parse env dest (ttl + 1) fuel).icmpConnClosed }

/-- A whole run of src/main.go: ttl goes 1, 2, ..., maxHops. -/
def runMain (env : Nat → NetEvent) (dest : Nat) : RunResult :=
  runAux parseMessage env dest 1 maxHops

/-- A whole run of the unnamed variant, identical except that it parses the
full zero-padded receive buffer. -/
def runVariant (env : Nat → NetEvent) (dest : Nat) : RunResult :=
  runAux parseVariant env dest 1 maxHops

/-- Process exit status: the log.Fatalf paths exit with status 1; return
from main (success or falling off the loop) exits with status 0. -/
def exitCode (r : RunResult) : Nat :=
  match r.outcome with
  | RunOutcome.fatalExit _ _ => 1
  | _ => 0

/-- Network that never answers. -/
def envAllTimeout : Nat → NetEvent := fun _ => NetEvent.timeout

/-- A malformed (1-byte) datagram at TTL 1, silence afterwards. -/
def envDecodeFail : Nat → NetEvent :=
  fun t => if t = 1 then NetEvent.packet [0] 9 else NetEvent.timeout

/-- The WriteTo call fails at every iteration. -/
def envSendFail : Nat → NetEvent := fun _ => NetEvent.sendFail

/-- A truncated 2-byte Destination Unreachable datagram at TTL 1, silence
afterwards. -/
def envShortDU : Nat → NetEvent :=
  fun t => if t = 1 then NetEvent.packet [3, 3] 7 else NetEvent.timeout

/-- A well-formed Destination Unreachable reply from peer 7 at TTL 1. -/
def envDU1 : Nat → NetEvent := fun _ => NetEvent.packet [3, 0, 0, 0, 0, 0, 0, 0] 7

/-- A well-formed Time Exceeded reply from peer 5 at TTL 1, silence
afterwards. -/
def envTE1 : Nat → NetEvent :=
  fun t => if t = 1 then NetEvent.packet [11, 0, 0, 0, 0, 0, 0, 0] 5 else NetEvent.timeout

/-! Unfolding lemmas for one loop iteration. -/

theorem runAux_zero (parse : List Nat → Option Nat) (env : Nat → NetEvent) (dest ttl : Nat) :
    runAux parse env dest ttl 0 =
      { reports := [], probes := [], outcome := RunOutcome.exhausted, icmpConnClosed := true } :=
  rfl

theorem runAux_fatal (parse : List Nat → Option Nat) (env : Nat → NetEvent)
    (dest ttl fuel : Nat) (k : FatalKind) (h : iterStep parse (env ttl) = IterResult.fatal k) :
    runAux parse env dest ttl (fuel + 1) =
      { reports := [], probes := [],
        outcome := RunOutcome.fatalExit k ttl, icmpConnClosed := false } := by
  simp [runAux, h]

theorem runAux_finished (parse : List Nat → Option Nat) (env : Nat → NetEvent)
    (dest ttl fuel : Nat) (a : Nat) (h : iterStep parse (env ttl) = IterResult.finished a) :
    runAux parse env dest ttl (fuel + 1) =
      { reports := [(ttl, HopLine.destUnreachable a)], probes := [probeFor dest ttl],
        outcome := RunOutcome.reachedDest a, icmpConnClosed := true } := by
  simp [runAux, h]

theorem runAux_cont (parse : List Nat → Option Nat) (env : Nat → NetEvent)
    (dest ttl fuel : Nat) (l : HopLine) (h : iterStep parse (env ttl) = IterResult.cont l) :
    runAux parse env dest ttl (fuel + 1) =
      { reports := (ttl, l) :: (runAux parse env dest (ttl + 1) fuel).reports
        probes := probeFor dest ttl :: (runAux parse env dest (ttl + 1) fuel).probes
        outcome := (runAux parse env dest (ttl + 1) fuel).outcome
        icmpConnClosed := (runAux parse env dest (ttl + 1) fuel).icmpConnClosed } := by
  simp [runAux, h]

theorem isCont_exists {parse : List Nat → Option Nat} {ev : NetEvent}
    (h : (iterStep parse ev).isCont = true) : ∃ l, iterStep parse ev = IterResult.cont l := by
  cases hs : iterStep parse ev with
  | fatal k => rw [hs] at h; simp [IterResult.isCont] at h
  | cont l => exact ⟨l, rfl⟩
  | finished a => rw [hs] at h; simp [IterResult.isCont] at h

theorem iterStep_finished_inv {parse : List Nat → Option Nat} {ev : NetEvent} {a : Nat}
    (h : iterStep parse ev = IterResult.finished a) :
    ∃ b, ev = NetEvent.packet b a ∧ parse b = some icmpTypeDestinationUnreachable := by
  cases ev with
  | sendSocketFail => simp [iterStep] at h
  | setTTLFail => simp [iterStep] at h
  | sendFail => simp [iterStep] at h
  | timeout => simp [iterStep] at h
  | readError => simp [iterStep] at h
  | packet bytes peer =>
    refine ⟨bytes, ?_, ?_⟩
    · simp only [iterStep, classify] at h
      cases hp : parse bytes with
      | none => rw [hp] at h; simp at h
      | some t =>
        rw [hp] at h
        by_cases h11 : t = icmpTypeTimeExceeded
        · simp [h11] at h
        · by_cases h3 : t = icmpTypeDestinationUnreachable
          · simp only [h11, if_false, h3, if_true] at h
            cases h
            rfl
          · simp [h11, h3] at h
    · simp only [iterStep, classify] at h
      cases hp : parse bytes with
      | none => rw [hp] at h; simp at h
      | some t =>
        rw [hp] at h
        by_cases h11 : t = icmpTypeTimeExceeded
        · simp [h11] at h
        · by_cases h3 : t = icmpTypeDestinationUnreachable
          · rw [h3]
          · simp [h11, h3] at h

theorem iterStep_packet_finished {parse : List Nat → Option Nat} {b : List Nat} {a : Nat}
    (hb : parse b = some icmpTypeDestinationUnreachable) :
    iterStep parse (NetEvent.packet b a) = IterResult.finished a := by
  simp [iterStep, classify, hb, icmpTypeTimeExceeded, icmpTypeDestinationUnreachable]

theorem iterStep_packet_te {parse : List Nat → Option Nat} {b : List Nat} {a : Nat}
    (hb : parse b = some icmpTypeTimeExceeded) :
    iterStep parse (NetEvent.packet b a) = IterResult.cont (HopLine.timeExceeded a) := by
  simp [iterStep, classify, hb]

theorem iterStep_packet_decodeErr {parse : List Nat → Option Nat} {b : List Nat} {a : Nat}
    (hb : parse b = none) :
    iterStep parse (NetEvent.packet b a) = IterResult.cont HopLine.decodeErr := by
  simp [iterStep, classify, hb]

theorem getLast_cons_ne_nil {α : Type} (a : α) {l : List α} (h : l ≠ []) :
    (a :: l).getLast? = l.getLast? := by
  cases l with
  | nil => exact absurd rfl h
  | cons b t => exact List.getLast?_cons_cons

/-! Run-level lemmas, all by induction on the remaining fuel. -/

theorem runAux_congr (p1 p2 : List Nat → Option Nat) (env : Nat → NetEvent) (dest : Nat)
    (h : ∀ t, iterStep p1 (env t) = iterStep p2 (env t)) :
    ∀ fuel ttl, runAux p1 env dest ttl fuel = runAux p2 env dest ttl fuel := by
  intro fuel
  induction fuel with
  | zero => intro ttl; rfl
  | succ f ih =>
    intro ttl
    cases hs : iterStep p1 (env ttl) with
    | fatal k =>
      rw [runAux_fatal p1 env dest ttl f k hs,
        runAux_fatal p2 env dest ttl f k ((h ttl).symm.trans hs)]
    | finished a =>
      rw [runAux_finished p1 env dest ttl f a hs,
        runAux_finished p2 env dest ttl f a ((h ttl).symm.trans hs)]
    | cont l =>
      rw [runAux_cont p1 env dest ttl f l hs,
        runAux_cont p2 env dest ttl f l ((h ttl).symm.trans hs), ih (ttl + 1)]

theorem runAux_all_timeout (p : List Nat → Option Nat) (env : Nat → NetEvent) (dest : Nat)
    (h : ∀ t, env t = NetEvent.timeout) :
    ∀ fuel ttl, runAux p env dest ttl fuel =
      { reports := (List.range' ttl fuel).map (fun j => (j, HopLine.timedOut))
        probes := (List.range' ttl fuel).map (probeFor dest)
        outcome := RunOutcome.exhausted, icmpConnClosed := true } := by
  intro fuel
  induction fuel with
  | zero => intro ttl; rfl
  | succ f ih =>
    intro ttl
    have hs : iterStep p (env ttl) = IterResult.cont HopLine.timedOut := by
      rw [h ttl]; rfl
    rw [runAux_cont p env dest ttl f HopLine.timedOut hs, ih (ttl + 1), List.range'_succ]
    simp

theorem runAux_closed_iff (p : List Nat → Option Nat) (env : Nat → NetEvent) (dest : Nat) :
    ∀ fuel ttl,
      (runAux p env dest ttl fuel).icmpConnClosed =
        !(runAux p env dest ttl fuel).outcome.isFatal := by
  intro fuel
  induction fuel with
  | zero => intro ttl; rfl
  | succ f ih =>
    intro ttl
    cases hs : iterStep p (env ttl) with
    | fatal k => rw [runAux_fatal p env dest ttl f k hs]; rfl
    | finished a => rw [runAux_finished p env dest ttl f a hs]; rfl
    | cont l => rw [runAux_cont p env dest ttl f l hs]; exact ih (ttl + 1)

theorem runAux_probe_fields (p : List Nat → Option Nat) (env : Nat → NetEvent) (dest : Nat) :
    ∀ fuel ttl q, q ∈ (runAux p env dest ttl fuel).probes →
      q.dest = dest ∧ q.port = destPort ∧ q.payload = [] ∧ q.sockId = q.ttl := by
  intro fuel
  induction fuel with
  | zero => intro ttl q hq; simp [runAux_zero] at hq
  | succ f ih =>
    intro ttl q hq
    cases hs : iterStep p (env ttl) with
    | fatal k => rw [runAux_fatal p env dest ttl f k hs] at hq; simp at hq
    | finished a =>
      rw [runAux_finished p env dest ttl f a hs] at hq
      simp at hq
      subst hq
      exact ⟨rfl, rfl, rfl, rfl⟩
    | cont l =>
      rw [runAux_cont p env dest ttl f l hs] at hq
      simp only [List.mem_cons] at hq
      cases hq with
      | inl h => subst h; exact ⟨rfl, rfl, rfl, rfl⟩
      | inr h => exact ih (ttl + 1) q h

theorem runAux_shape (p : List Nat → Option Nat) (env : Nat → NetEvent) (dest : Nat) :
    ∀ fuel ttl, ∃ m, m ≤ fuel ∧
      (runAux p env dest ttl fuel).probes.map Probe.ttl = List.range' ttl m ∧
      (runAux p env dest ttl fuel).reports.map Prod.fst = List.range' ttl m := by
  intro fuel
  induction fuel with
  | zero => intro ttl; exact ⟨0, Nat.le_refl 0, rfl, rfl⟩
  | succ f ih =>
    intro ttl
    cases hs : iterStep p (env ttl) with
    | fatal k =>
      rw [runAux_fatal p env dest ttl f k hs]
      exact ⟨0, Nat.zero_le _, rfl, rfl⟩
    | finished a =>
      rw [runAux_finished p env dest ttl f a hs]
      refine ⟨1, by omega, ?_, ?_⟩ <;> simp [probeFor, List.range'_succ]
    | cont l =>
      rw [runAux_cont p env dest ttl f l hs]
      obtain ⟨m, hm, hp, hr⟩ := ih (ttl + 1)
      refine ⟨m + 1, by omega, ?_, ?_⟩
      · simp only [List.map_cons, hp, List.range'_succ]
        rfl
      · simp only [List.map_cons, hr, List.range'_succ]

theorem runAux_reached_inv (p : List Nat → Option Nat) (env : Nat → NetEvent) (dest a : Nat) :
    ∀ fuel ttl, (runAux p env dest ttl fuel).outcome = RunOutcome.reachedDest a →
      ∃ k b, ttl ≤ k ∧ k < ttl + fuel ∧ env k = NetEvent.packet b a ∧
        p b = some icmpTypeDestinationUnreachable := by
  intro fuel
  induction fuel with
  | zero => intro ttl h; simp [runAux_zero] at h
  | succ f ih =>
    intro ttl h
    cases hs : iterStep p (env ttl) with
    | fatal k => rw [runAux_fatal p env dest ttl f k hs] at h; simp at h
    | finished peer =>
      rw [runAux_finished p env dest ttl f peer hs] at h
      simp only at h
      cases h
      obtain ⟨b, hb1, hb2⟩ := iterStep_finished_inv hs
      exact ⟨ttl, b, Nat.le_refl ttl, by omega, hb1, hb2⟩
    | cont l =>
      rw [runAux_cont p env dest ttl f l hs] at h
      simp only at h
      obtain ⟨k, b, hk1, hk2, hk3, hk4⟩ := ih (ttl + 1) h
      exact ⟨k, b, by omega, by omega, hk3, hk4⟩

theorem runAux_reach_finish (p : List Nat → Option Nat) (env : Nat → NetEvent) (dest a : Nat) :
    ∀ fuel ttl k, ttl ≤ k → k < ttl + fuel →
      (∀ j, ttl ≤ j → j < k → (iterStep p (env j)).isCont = true) →
      iterStep p (env k) = IterResult.finished a →
      (runAux p env dest ttl fuel).outcome = RunOutcome.reachedDest a ∧
      (runAux p env dest ttl fuel).probes.map Probe.ttl = List.range' ttl (k + 1 - ttl) ∧
      (runAux p env dest ttl fuel).reports.map Prod.fst = List.range' ttl (k + 1 - ttl) ∧
      (runAux p env dest ttl fuel).reports.getLast? = some (k, HopLine.destUnreachable a) ∧
      (runAux p env dest ttl fuel).icmpConnClosed = true := by
  intro fuel
  induction fuel with
  | zero => intro ttl k h1 h2; omega
  | succ f ih =>
    intro ttl k h1 h2 hcont hfin
    rcases Nat.eq_or_lt_of_le h1 with heq | hlt
    · subst heq
      rw [runAux_finished p env dest ttl f a hfin]
      refine ⟨rfl, ?_, ?_, rfl, rfl⟩ <;>
        simp [probeFor, Nat.add_sub_cancel_left, List.range'_succ]
    · obtain ⟨l, hl⟩ := isCont_exists (hcont ttl (Nat.le_refl ttl) hlt)
      rw [runAux_cont p env dest ttl f l hl]
      obtain ⟨ho, hp, hr, hg, hc⟩ := ih (ttl + 1) k hlt (by omega)
        (fun j hj1 hj2 => hcont j (by omega) hj2) hfin
      have hkt : k + 1 - ttl = (k + 1 - (ttl + 1)) + 1 := by omega
      refine ⟨ho, ?_, ?_, ?_, hc⟩
      · simp only [List.map_cons, hp, hkt, List.range'_succ]
        rfl
      · simp only [List.map_cons, hr, hkt, List.range'_succ]
      · have hne : (runAux p env dest (ttl + 1) f).reports ≠ [] := by
          intro hnil
          rw [hnil] at hg
          simp at hg
        simp only
        rw [getLast_cons_ne_nil _ hne]
        exact hg

theorem runAux_reach_fatal (p : List Nat → Option Nat) (env : Nat → NetEvent) (dest : Nat)
    (fk : FatalKind) :
    ∀ fuel ttl k, ttl ≤ k → k < ttl + fuel →
      (∀ j, ttl ≤ j → j < k → (iterStep p (env j)).isCont = true) →
      iterStep p (env k) = IterResult.fatal fk →
      (runAux p env dest ttl fuel).outcome = RunOutcome.fatalExit fk k ∧
      (runAux p env dest ttl fuel).probes.map Probe.ttl = List.range' ttl (k - ttl) ∧
      (runAux p env dest ttl fuel).reports.map Prod.fst = List.range' ttl (k - ttl) ∧
      (runAux p env dest ttl fuel).icmpConnClosed = false := by
  intro fuel
  induction fuel with
  | zero => intro ttl k h1 h2; omega
  | succ f ih =>
    intro ttl k h1 h2 hcont hfat
    rcases Nat.eq_or_lt_of_le h1 with heq | hlt
    · subst heq
      rw [runAux_fatal p env dest ttl f fk hfat]
      refine ⟨rfl, ?_, ?_, rfl⟩ <;> simp
    · obtain ⟨l, hl⟩ := isCont_exists (hcont ttl (Nat.le_refl ttl) hlt)
      rw [runAux_cont p env dest ttl f l hl]
      obtain ⟨ho, hp, hr, hc⟩ := ih (ttl + 1) k hlt (by omega)
        (fun j hj1 hj2 => hcont j (by omega) hj2) hfat
      have hkt : k - ttl = (k - (ttl + 1)) + 1 := by omega
      refine ⟨ho, ?_, ?_, hc⟩
      · simp only [List.map_cons, hp, hkt, List.range'_succ]
        rfl
      · simp only [List.map_cons, hr, hkt, List.range'_succ]

/-- If the truncated parse succeeds and the datagram fits the 1500-byte
buffer, parsing the zero-padded full buffer succeeds with the same type. -/
theorem parseVariant_eq_of_ok {b : List Nat} {t : Nat} (hlen : b.length ≤ 1500)
    (h : parseMessage b = some t) : parseVariant b = some t := by
  by_cases h4 : b.length < 4
  · unfold parseMessage at h
    rw [if_pos h4] at h
    exact absurd h (by simp)
  · by_cases h8 : b.headD 0 ∈ typedBodyTypes ∧ b.length < 8
    · unfold parseMessage at h
      rw [if_neg h4, if_pos h8] at h
      exact absurd h (by simp)
    · have ht : b.headD 0 = t := by
        unfold parseMessage at h
        rw [if_neg h4, if_neg h8] at h
        injection h
      have hlen1500 : (pad1500 b).length = 1500 := by
        simp only [pad1500, List.length_append, List.length_replicate]
        omega
      have hhead : (pad1500 b).headD 0 = b.headD 0 := by
        cases b with
        | nil => simp at h4
        | cons x xs => rfl
      simp only [parseVariant, parseMessage, hlen1500, hhead, ht]
      norm_num

/-! Claims. -/

/-- C1: if the reply received for the probe at TTL k is a Destination
Unreachable (the traceroute port-unreachable signal), the engine reports hop
k with the responder address and terminates the whole run successfully (exit
status 0); the probed TTLs are exactly 1..k, so no probe is sent for TTL
k + 1; and a successful termination happens only through such a reply: every
run that ends in reachedDest received a Destination Unreachable datagram at
some TTL within the ceiling. -/
theorem claim_C1_port_unreachable_terminates (env : Nat → NetEvent) (dest k a : Nat)
    (b : List Nat) (h1 : 1 ≤ k) (h2 : k ≤ maxHops)
    (hreach : ∀ j, 1 ≤ j → j < k → (iterStep parseMessage (env j)).isCont = true)
    (hk : env k = NetEvent.packet b a)
    (hb : parseMessage b = some icmpTypeDestinationUnreachable) :
    (runMain env dest).outcome = RunOutcome.reachedDest a ∧
    exitCode (runMain env dest) = 0 ∧
    (runMain env dest).reports.getLast? = some (k, HopLine.destUnreachable a) ∧
    (runMain env dest).probes.map Probe.ttl = List.range' 1 k ∧
    (runMain env dest).reports.map Prod.fst = List.range' 1 k ∧
    (∀ env2 d2 a2, (runMain env2 d2).outcome = RunOutcome.reachedDest a2 →
      ∃ k2 b2, 1 ≤ k2 ∧ k2 ≤ maxHops ∧ env2 k2 = NetEvent.packet b2 a2 ∧
        parseMessage b2 = some icmpTypeDestinationUnreachable) := by
  have hfin : iterStep parseMessage (env k) = IterResult.finished a := by
    rw [hk]; exact iterStep_packet_finished hb
  have hh := runAux_reach_finish parseMessage env dest a maxHops 1 k h1
    (by simp only [maxHops] at h2 ⊢; omega) hreach hfin
  obtain ⟨ho, hp, hr, hg, hc⟩ := hh
  have hk1 : k + 1 - 1 = k := by omega
  rw [hk1] at hp hr
  refine ⟨ho, ?_, hg, hp, hr, ?_⟩
  · have ho2 : (runMain env dest).outcome = RunOutcome.reachedDest a := ho
    simp [exitCode, ho2]
  · intro env2 d2 a2 hrd
    obtain ⟨k2, b2, hh1, hh2, hh3, hh4⟩ :=
      runAux_reached_inv parseMessage env2 d2 a2 maxHops 1 hrd
    refine ⟨k2, b2, hh1, ?_, hh3, hh4⟩
    simp only [maxHops] at hh2 ⊢
    omega

theorem claim_C1_witness :
    (runMain envDU1 0).outcome = RunOutcome.reachedDest 7 ∧
    exitCode (runMain envDU1 0) = 0 ∧
    (runMain envDU1 0).reports.getLast? = some (1, HopLine.destUnreachable 7) ∧
    (runMain envDU1 0).probes.map Probe.ttl = List.range' 1 1 := by
  obtain ⟨ha, hb, hc, hd, -, -⟩ := claim_C1_port_unreachable_terminates envDU1 0 1 7
    [3, 0, 0, 0, 0, 0, 0, 0] (by decide) (by decide)
    (fun j hj1 hj2 => absurd hj2 (by omega)) rfl (by decide)
  exact ⟨ha, hb, hc, hd⟩

/-- C2 counterexample: the claim says a decode failure leaves the current
TTL unchanged and the receive is retried within the same hop, consuming no
new TTL.  In the code the decode-failure branch executes continue, which
advances the loop to the next TTL: with a malformed 1-byte datagram at
TTL 1 and silence afterwards, the report for TTL 1 is the decode-failure
log, the next report is the timeout for TTL 2, and a fresh probe is sent
for every TTL 1..30 - the malformed bytes consumed TTL 1 and the receive
was never retried at TTL 1. -/
theorem claim_C2_counterexample :
    parseMessage [0] = none ∧
    (runMain envDecodeFail 0).reports.take 2 =
      [(1, HopLine.decodeErr), (2, HopLine.timedOut)] ∧
    (runMain envDecodeFail 0).probes.map Probe.ttl = List.range' 1 30 ∧
    (runMain envDecodeFail 0).outcome = RunOutcome.exhausted := by decide

/-- C2 amended: if the bytes received at TTL k fail to decode, the failure
is absorbed (logged, with no responder or classification reported for the
malformed bytes) and the run does not end there, but the receive is not
retried: the loop advances to TTL k + 1, consuming the current TTL - the
rest of the run is exactly the run starting from TTL k + 1. -/
theorem claim_C2_amended_decode_failure_absorbed (env : Nat → NetEvent) (dest k fuel p : Nat)
    (b : List Nat) (hk : env k = NetEvent.packet b p) (hb : parseMessage b = none) :
    runAux parseMessage env dest k (fuel + 1) =
      { reports := (k, HopLine.decodeErr) :: (runAux parseMessage env dest (k + 1) fuel).reports
        probes := probeFor dest k :: (runAux parseMessage env dest (k + 1) fuel).probes
        outcome := (runAux parseMessage env dest (k + 1) fuel).outcome
        icmpConnClosed := (runAux parseMessage env dest (k + 1) fuel).icmpConnClosed } := by
  apply runAux_cont
  rw [hk]
  exact iterStep_packet_decodeErr hb

theorem claim_C2_amended_witness :
    runAux parseMessage envDecodeFail 0 1 30 =
      { reports := (1, HopLine.decodeErr) :: (runAux parseMessage envDecodeFail 0 2 29).reports
        probes := probeFor 0 1 :: (runAux parseMessage envDecodeFail 0 2 29).probes
        outcome := (runAux parseMessage envDecodeFail 0 2 29).outcome
        icmpConnClosed := (runAux parseMessage envDecodeFail 0 2 29).icmpConnClosed } :=
  claim_C2_amended_decode_failure_absorbed envDecodeFail 0 1 29 9 [0] (by decide) (by decide)

/-- C3: for every environment the run sends at most 30 probes, every probe
carries a TTL between 1 and 30, and against a network that never replies the
run sends exactly 30 probes and ends exhausted, which is not a success
outcome. -/
theorem claim_C3_probe_ceiling (env : Nat → NetEvent) (dest : Nat) :
    (runMain env dest).probes.length ≤ maxHops ∧
    (∀ q ∈ (runMain env dest).probes, 1 ≤ q.ttl ∧ q.ttl ≤ maxHops) ∧
    ((∀ t, env t = NetEvent.timeout) →
      (runMain env dest).probes.length = maxHops ∧
      (runMain env dest).outcome = RunOutcome.exhausted ∧
      ∀ a, (runMain env dest).outcome ≠ RunOutcome.reachedDest a) := by
  obtain ⟨m, hm, hp, hr⟩ := runAux_shape parseMessage env dest maxHops 1
  have hlen : (runMain env dest).probes.length = m := by
    have hl := congrArg List.length hp
    simpa using hl
  refine ⟨by omega, ?_, ?_⟩
  · intro q hq
    have hmem : q.ttl ∈ (runMain env dest).probes.map Probe.ttl := List.mem_map_of_mem _ hq
    have hp2 : (runMain env dest).probes.map Probe.ttl = List.range' 1 m := hp
    rw [hp2] at hmem
    have hb := List.mem_range'_1.mp hmem
    simp only [maxHops] at hm ⊢
    omega
  · intro hto
    have hall := runAux_all_timeout parseMessage env dest hto maxHops 1
    refine ⟨?_, ?_, ?_⟩
    · show (runAux parseMessage env dest 1 maxHops).probes.length = maxHops
      rw [hall]
      simp
    · show (runAux parseMessage env dest 1 maxHops).outcome = RunOutcome.exhausted
      rw [hall]
    · intro a hcontra
      have hex : (runMain env dest).outcome = RunOutcome.exhausted := by
        show (runAux parseMessage env dest 1 maxHops).outcome = RunOutcome.exhausted
        rw [hall]
      rw [hex] at hcontra
      exact absurd hcontra (by simp)

theorem claim_C3_witness :
    (runMain envAllTimeout 0).probes.length = maxHops ∧
    (runMain envAllTimeout 0).outcome = RunOutcome.exhausted := by
  obtain ⟨-, -, h⟩ := claim_C3_probe_ceiling envAllTimeout 0
  obtain ⟨h1, h2, -⟩ := h (fun t => rfl)
  exact ⟨h1, h2⟩

/-- C4: in every run the probed TTLs and the reported TTLs are the same
contiguous increasing sequence 1, 2, ..., m for some m at most 30: no gaps,
no repeats, no reordering. -/
theorem claim_C4_ttl_sequence (env : Nat → NetEvent) (dest : Nat) :
    ∃ m, m ≤ maxHops ∧
      (runMain env dest).probes.map Probe.ttl = List.range' 1 m ∧
      (runMain env dest).reports.map Prod.fst = List.range' 1 m :=
  runAux_shape parseMessage env dest maxHops 1

/-- C5: if the reply received at TTL k is a Time Exceeded datagram from
address a, the engine reports hop k with responder a tagged Time Exceeded
and continues with TTL k + 1: the rest of the run is exactly the run
starting from TTL k + 1, so this reply kind never terminates the run by
itself. -/
theorem claim_C5_time_exceeded_continues (env : Nat → NetEvent) (dest k fuel a : Nat)
    (b : List Nat) (hk : env k = NetEvent.packet b a)
    (hb : parseMessage b = some icmpTypeTimeExceeded) :
    runAux parseMessage env dest k (fuel + 1) =
      { reports := (k, HopLine.timeExceeded a) ::
          (runAux parseMessage env dest (k + 1) fuel).reports
        probes := probeFor dest k :: (runAux parseMessage env dest (k + 1) fuel).probes
        outcome := (runAux parseMessage env dest (k + 1) fuel).outcome
        icmpConnClosed := (runAux parseMessage env dest (k + 1) fuel).icmpConnClosed } := by
  apply runAux_cont
  rw [hk]
  exact iterStep_packet_te hb

theorem claim_C5_witness :
    runAux parseMessage envTE1 0 1 30 =
      { reports := (1, HopLine.timeExceeded 5) :: (runAux parseMessage envTE1 0 2 29).reports
        probes := probeFor 0 1 :: (runAux parseMessage envTE1 0 2 29).probes
        outcome := (runAux parseMessage envTE1 0 2 29).outcome
        icmpConnClosed := (runAux parseMessage envTE1 0 2 29).icmpConnClosed } :=
  claim_C5_time_exceeded_continues envTE1 0 1 29 5 [11, 0, 0, 0, 0, 0, 0, 0]
    (by decide) (by decide)

/-- C6: the per-hop deadline is the fixed 2-second constant; if no reply
arrives within it at TTL k, the engine reports the timeout marker for hop k
as an ordinary hop outcome and continues with TTL k + 1 (the rest of the run
is exactly the run from TTL k + 1); and a network that always times out
yields the full 30-hop progression of timeout reports with the run ending
exhausted, never aborted. -/
theorem claim_C6_timeout_is_hop_outcome (env : Nat → NetEvent) (dest k fuel : Nat)
    (hk : env k = NetEvent.timeout) :
    timeoutSeconds = 2 ∧
    runAux parseMessage env dest k (fuel + 1) =
      { reports := (k, HopLine.timedOut) :: (runAux parseMessage env dest (k + 1) fuel).reports
        probes := probeFor dest k :: (runAux parseMessage env dest (k + 1) fuel).probes
        outcome := (runAux parseMessage env dest (k + 1) fuel).outcome
        icmpConnClosed := (runAux parseMessage env dest (k + 1) fuel).icmpConnClosed } ∧
    (∀ env2 d2, (∀ t, env2 t = NetEvent.timeout) →
      runMain env2 d2 =
        { reports := (List.range' 1 maxHops).map (fun j => (j, HopLine.timedOut))
          probes := (List.range' 1 maxHops).map (probeFor d2)
          outcome := RunOutcome.exhausted, icmpConnClosed := true }) := by
  refine ⟨rfl, ?_, ?_⟩
  · apply runAux_cont
    rw [hk]
    rfl
  · intro env2 d2 hto
    exact runAux_all_timeout parseMessage env2 d2 hto maxHops 1

theorem claim_C6_witness :
    timeoutSeconds = 2 ∧
    runMain envAllTimeout 0 =
      { reports := (List.range' 1 maxHops).map (fun j => (j, HopLine.timedOut))
        probes := (List.range' 1 maxHops).map (probeFor 0)
        outcome := RunOutcome.exhausted, icmpConnClosed := true } := by
  obtain ⟨h1, -, h3⟩ := claim_C6_timeout_is_hop_outcome envAllTimeout 0 1 28 rfl
  exact ⟨h1, h3 envAllTimeout 0 (fun t => rfl)⟩

/-- C7 counterexample: the claim says the shared ICMP receive connection is
released on every exit path, including the fatal-error exits taken mid-run.
If the UDP send fails at TTL 1, log.Fatalf exits the process through
os.Exit, which skips the deferred Close: the run ends on the fatal path with
the connection not closed. -/
theorem claim_C7_counterexample :
    (runMain envSendFail 0).outcome = RunOutcome.fatalExit FatalKind.send 1 ∧
    (runMain envSendFail 0).icmpConnClosed = false := by decide

/-- C7 amended: the shared ICMP receive connection is closed exactly on the
non-fatal exit paths - early success (destination reached) and hitting the
hop ceiling - and is not closed by the program on the fatal log.Fatalf
paths, because os.Exit does not run deferred calls. -/
theorem claim_C7_amended_closed_iff_not_fatal (env : Nat → NetEvent) (dest : Nat) :
    (runMain env dest).icmpConnClosed = !(runMain env dest).outcome.isFatal :=
  runAux_closed_iff parseMessage env dest maxHops 1

/-- C8: if at TTL k opening the per-hop send socket fails, or setting the
TTL option fails, or the send call fails, the run aborts at TTL k with a
fatal non-zero exit; no hop outcome is reported for TTL k and the probes and
reports stop at TTL k - 1, so nothing is retried and no further probe is
sent. -/
theorem claim_C8_fatal_abort (env : Nat → NetEvent) (dest k : Nat) (fk : FatalKind)
    (h1 : 1 ≤ k) (h2 : k ≤ maxHops)
    (hreach : ∀ j, 1 ≤ j → j < k → (iterStep parseMessage (env j)).isCont = true)
    (hk : iterStep parseMessage (env k) = IterResult.fatal fk) :
    (runMain env dest).outcome = RunOutcome.fatalExit fk k ∧
    exitCode (runMain env dest) = 1 ∧
    (runMain env dest).probes.map Probe.ttl = List.range' 1 (k - 1) ∧
    (runMain env dest).reports.map Prod.fst = List.range' 1 (k - 1) := by
  obtain ⟨ho, hp, hr, hc⟩ := runAux_reach_fatal parseMessage env dest fk maxHops 1 k h1
    (by simp only [maxHops] at h2 ⊢; omega) hreach hk
  refine ⟨ho, ?_, hp, hr⟩
  have ho2 : (runMain env dest).outcome = RunOutcome.fatalExit fk k := ho
  simp [exitCode, ho2]

theorem claim_C8_witness :
    (runMain envSendFail 1).outcome = RunOutcome.fatalExit FatalKind.send 1 ∧
    exitCode (runMain envSendFail 1) = 1 ∧
    (runMain envSendFail 1).probes.map Probe.ttl = List.range' 1 0 ∧
    (runMain envSendFail 1).reports.map Prod.fst = List.range' 1 0 :=
  claim_C8_fatal_abort envSendFail 1 1 FatalKind.send (by decide) (by decide)
    (fun j hj1 hj2 => absurd hj2 (by omega)) rfl

/-- C9: in every run each completed iteration sends exactly one probe; every
probe sent is a zero-payload datagram addressed to the resolved destination
at the fixed port 33434 with the TTL field equal to its iteration counter,
on a send socket opened by that same iteration; the send sockets are
pairwise distinct across hops (never reused); and the probed TTLs are the
contiguous sequence 1..m for some m at most 30. -/
theorem claim_C9_probe_contract (env : Nat → NetEvent) (dest : Nat) :
    destPort = 33434 ∧
    (∀ q ∈ (runMain env dest).probes,
      q.dest = dest ∧ q.port = destPort ∧ q.payload = [] ∧ q.sockId = q.ttl) ∧
    ((runMain env dest).probes.map Probe.sockId).Nodup ∧
    (∃ m, m ≤ maxHops ∧ (runMain env dest).probes.map Probe.ttl = List.range' 1 m) := by
  have hfields := runAux_probe_fields parseMessage env dest maxHops 1
  obtain ⟨m, hm, hp, -⟩ := runAux_shape parseMessage env dest maxHops 1
  refine ⟨rfl, hfields, ?_, ⟨m, hm, hp⟩⟩
  have hmapeq : (runMain env dest).probes.map Probe.sockId =
      (runMain env dest).probes.map Probe.ttl := by
    apply List.map_congr_left
    intro q hq
    exact (hfields q hq).2.2.2
  rw [hmapeq]
  have hp2 : (runMain env dest).probes.map Probe.ttl = List.range' 1 m := hp
  rw [hp2]
  simp [List.nodup_range']

set_option maxRecDepth 8192 in
theorem claim_C9_witness :
    probeFor 0 1 ∈ (runMain envAllTimeout 0).probes ∧
    (probeFor 0 1).port = destPort ∧
    (probeFor 0 1).payload = [] ∧
    ((runMain envAllTimeout 0).probes.map Probe.sockId).Nodup := by
  have h := claim_C9_probe_contract envAllTimeout 0
  have hmem : probeFor 0 1 ∈ (runMain envAllTimeout 0).probes := by decide
  exact ⟨hmem, (h.2.1 (probeFor 0 1) hmem).2.1, (h.2.1 (probeFor 0 1) hmem).2.2.1, h.2.2.1⟩

set_option maxRecDepth 100000 in
/-- C10 counterexample: the two sources are not observably equivalent.  A
truncated 2-byte Destination Unreachable datagram (bytes 3, 3) at TTL 1 is a
decode failure for main.go, which parses only the received bytes and so runs
on to exhaustion, while the unnamed variant parses the whole zero-padded
1500-byte buffer, decodes type 3, reports the destination as reached and
terminates the run successfully at hop 1. -/
theorem claim_C10_counterexample :
    parseMessage [3, 3] = none ∧
    parseVariant [3, 3] = some 3 ∧
    (runMain envShortDU 0).outcome = RunOutcome.exhausted ∧
    (runVariant envShortDU 0).outcome = RunOutcome.reachedDest 7 ∧
    runMain envShortDU 0 ≠ runVariant envShortDU 0 := by decide

/-- C10 amended: the two programs are observably equivalent on every run in
which each received datagram fits the 1500-byte buffer and decodes
successfully under the truncated parse (length at least 4, and at least 8
when the leading type byte has a structured body parser): on such runs the
reports, probes, outcome and resource state coincide.  They can differ only
on datagrams that main.go rejects as malformed but whose zero-padded buffer
the variant decodes. -/
theorem claim_C10_amended_equivalence (env : Nat → NetEvent) (dest : Nat)
    (h : ∀ t b p, env t = NetEvent.packet b p →
      b.length ≤ 1500 ∧ (parseMessage b).isSome = true) :
    runMain env dest = runVariant env dest := by
  apply runAux_congr
  intro t
  cases hev : env t with
  | sendSocketFail => rfl
  | setTTLFail => rfl
  | sendFail => rfl
  | timeout => rfl
  | readError => rfl
  | packet b p =>
    obtain ⟨hlen, hsome⟩ := h t b p hev
    obtain ⟨tt, htt⟩ := Option.isSome_iff_exists.mp hsome
    have hv := parseVariant_eq_of_ok hlen htt
    simp [iterStep, classify, htt, hv]

theorem claim_C10_amended_witness : runMain envTE1 0 = runVariant envTE1 0 := by
  apply claim_C10_amended_equivalence envTE1 0
  intro t b p hev
  by_cases ht : t = 1
  · subst ht
    simp only [envTE1, if_pos rfl] at hev
    injection hev with hb hp
    subst hb
    exact ⟨by decide, by decide⟩
  · simp only [envTE1, if_neg ht] at hev
    exact absurd hev (by simp)
